import Mathlib

/-!
Verification development for the wargon2-captcha service: a shallow
embedding of the Go sources (argon2 challenge service, AES-GCM fingerprint
cipher, fingerprint field validator, HTTP verify handler) together with
proofs of the specified properties.

Modelling conventions: Go byte slices are lists of naturals below 256,
Go strings are Lean strings (byte views taken through UTF-8 encoding),
Go int/uint fields are Int/Nat, time.Time instants are Int, and the
external libraries (argon2.IDKey, AES-GCM seal/open, encoding/json)
are abstract function parameters constrained by hypotheses where a claim
needs their contracts. Database store operations are modelled as pure
state transitions on an explicit record store.
-/

namespace Captcha

/-! ### Byte and string helpers -/

/-- UTF-8 encoding of a single code point, as byte values. -/
def utf8EncodeNat (c : Nat) : List Nat :=
  if c < 0x80 then [c]
  else if c < 0x800 then [0xC0 + c / 64, 0x80 + c % 64]
  else if c < 0x10000 then [0xE0 + c / 4096, 0x80 + (c / 64) % 64, 0x80 + c % 64]
  else [0xF0 + c / 262144, 0x80 + (c / 4096) % 64, 0x80 + (c / 64) % 64, 0x80 + c % 64]

/-- The byte view of a Go string (Go `[]byte(s)`, a UTF-8 encoding). -/
def strBytes (s : String) : List Nat :=
  (s.data.map (fun c => utf8EncodeNat c.toNat)).flatten

/-- crypto.ReverseBytes: writes `result[len-1-i] = data[i]`, i.e. reverses. -/
def ReverseBytes (data : List Nat) : List Nat :=
  data.foldl (fun acc b => b :: acc) []

/-- wasm/main.go reverseString: converts the string to a rune slice,
swaps runes `i` and `len-1-j` pairwise from both ends, and converts
back — i.e. reverses the rune (character) sequence. -/
def reverseString (s : String) : String :=
  String.mk s.data.reverse

/-- Lowercase hex digit for a value below 16 (Go encoding/hex alphabet). -/
def hexChar (n : Nat) : Char :=
  Char.ofNat (if n < 10 then 48 + n else 87 + n)

/-- Go hex.EncodeToString: lowercase hex rendering of a byte slice. -/
def hexEncode (bs : List Nat) : String :=
  String.mk (bs.flatMap (fun b => [hexChar (b / 16), hexChar (b % 16)]))

/-! ### Base64 (Go encoding/base64 StdEncoding) -/

/-- Byte value of the standard base64 alphabet character at index `n`. -/
def b64CharVal (n : Nat) : Nat :=
  if n < 26 then 65 + n
  else if n < 52 then 97 + (n - 26)
  else if n < 62 then 48 + (n - 52)
  else if n = 62 then 43
  else 47

/-- Index of a byte value in the standard base64 alphabet, if any. -/
def b64IdxOf (c : Nat) : Option Nat :=
  if 65 ≤ c ∧ c ≤ 90 then some (c - 65)
  else if 97 ≤ c ∧ c ≤ 122 then some (26 + (c - 97))
  else if 48 ≤ c ∧ c ≤ 57 then some (52 + (c - 48))
  else if c = 43 then some 62
  else if c = 47 then some 63
  else none

/-- Standard base64 encoding, on byte values (61 is the pad byte `=`). -/
def b64EncodeVals : List Nat → List Nat
  | [] => []
  | [b1] => [b64CharVal (b1 / 4), b64CharVal (b1 % 4 * 16), 61, 61]
  | [b1, b2] =>
    [b64CharVal (b1 / 4), b64CharVal (b1 % 4 * 16 + b2 / 16), b64CharVal (b2 % 16 * 4), 61]
  | b1 :: b2 :: b3 :: rest =>
    b64CharVal (b1 / 4) :: b64CharVal (b1 % 4 * 16 + b2 / 16) ::
      b64CharVal (b2 % 16 * 4 + b3 / 64) :: b64CharVal (b3 % 64) :: b64EncodeVals rest

/-- Standard base64 decoding, on byte values: four-byte groups, padding
only in the final group (Go StdEncoding.DecodeString, which accepts
nonzero trailing bits). -/
def b64DecodeVals : List Nat → Option (List Nat)
  | [] => some []
  | c1 :: c2 :: c3 :: c4 :: rest =>
    match b64IdxOf c1, b64IdxOf c2 with
    | some n1, some n2 =>
      if c3 = 61 then
        if c4 = 61 ∧ rest = [] then some [n1 * 4 + n2 / 16] else none
      else
        match b64IdxOf c3 with
        | some n3 =>
          if c4 = 61 then
            if rest = [] then some [n1 * 4 + n2 / 16, n2 % 16 * 16 + n3 / 4] else none
          else
            match b64IdxOf c4 with
            | some n4 =>
              (b64DecodeVals rest).map
                (fun tl => (n1 * 4 + n2 / 16) :: (n2 % 16 * 16 + n3 / 4) :: (n3 % 4 * 64 + n4) :: tl)
            | none => none
        | none => none
    | _, _ => none
  | _ => none

/-- crypto.EncodeBase64 (Go base64.StdEncoding.EncodeToString). -/
def b64Encode (bs : List Nat) : String :=
  String.mk ((b64EncodeVals bs).map Char.ofNat)

/-- crypto.DecodeBase64 (Go base64.StdEncoding.DecodeString). -/
def b64Decode (s : String) : Option (List Nat) :=
  b64DecodeVals (strBytes s)

/-! ### Proof-carrying helper facts used by the round-trip development.
These are stated as recursive proof terms so that they can mirror the
recursion structure of the encoders they speak about. -/

def b64IdxOf_charVal : ∀ n : Nat, n < 64 → b64IdxOf (b64CharVal n) = some n := by decide

def b64CharVal_ne_pad : ∀ n : Nat, n < 64 → b64CharVal n ≠ 61 := by decide

def b64CharVal_lt_128 (n : Nat) : b64CharVal n < 128 := by
  unfold b64CharVal
  repeat' split
  all_goals omega

def charOfNat_toNat_lt_128 : ∀ v : Nat, v < 128 → (Char.ofNat v).toNat = v := by decide

def b64EncodeVals_lt_128 : ∀ (bs : List Nat), ∀ v ∈ b64EncodeVals bs, v < 128
  | [], v, hv => by simp [b64EncodeVals] at hv
  | [b1], v, hv => by
    simp only [b64EncodeVals, List.mem_cons, List.not_mem_nil, or_false] at hv
    rcases hv with h | h | h | h <;> subst h
    · exact b64CharVal_lt_128 _
    · exact b64CharVal_lt_128 _
    · omega
    · omega
  | [b1, b2], v, hv => by
    simp only [b64EncodeVals, List.mem_cons, List.not_mem_nil, or_false] at hv
    rcases hv with h | h | h | h <;> subst h
    · exact b64CharVal_lt_128 _
    · exact b64CharVal_lt_128 _
    · exact b64CharVal_lt_128 _
    · omega
  | b1 :: b2 :: b3 :: rest, v, hv => by
    simp only [b64EncodeVals, List.mem_cons] at hv
    rcases hv with h | h | h | h | h
    · subst h; exact b64CharVal_lt_128 _
    · subst h; exact b64CharVal_lt_128 _
    · subst h; exact b64CharVal_lt_128 _
    · subst h; exact b64CharVal_lt_128 _
    · exact b64EncodeVals_lt_128 rest v h

def b64Vals_roundtrip : ∀ (bs : List Nat), (∀ b ∈ bs, b < 256) →
    b64DecodeVals (b64EncodeVals bs) = some bs
  | [], _ => rfl
  | [b1], h => by
    have hb1 : b1 < 256 := h b1 (by simp)
    simp only [b64EncodeVals, b64DecodeVals]
    rw [b64IdxOf_charVal _ (by omega), b64IdxOf_charVal _ (by omega)]
    simp only [if_pos rfl, and_self, if_pos]
    congr 2
    omega
  | [b1, b2], h => by
    have hb1 : b1 < 256 := h b1 (by simp)
    have hb2 : b2 < 256 := h b2 (by simp)
    have hne : b64CharVal (b2 % 16 * 4) ≠ 61 := b64CharVal_ne_pad _ (by omega)
    simp only [b64EncodeVals, b64DecodeVals]
    rw [b64IdxOf_charVal _ (by omega), b64IdxOf_charVal _ (by omega),
      b64IdxOf_charVal _ (by omega)]
    simp [hne]
    omega
  | b1 :: b2 :: b3 :: rest, h => by
    have hb1 : b1 < 256 := h b1 (by simp)
    have hb2 : b2 < 256 := h b2 (by simp)
    have hb3 : b3 < 256 := h b3 (by simp)
    have ih := b64Vals_roundtrip rest (fun b hb => h b (by simp [hb]))
    have hne3 : b64CharVal (b2 % 16 * 4 + b3 / 64) ≠ 61 := b64CharVal_ne_pad _ (by omega)
    have hne4 : b64CharVal (b3 % 64) ≠ 61 := b64CharVal_ne_pad _ (by omega)
    simp only [b64EncodeVals, b64DecodeVals]
    rw [b64IdxOf_charVal _ (by omega), b64IdxOf_charVal _ (by omega),
      b64IdxOf_charVal _ (by omega), b64IdxOf_charVal _ (by omega)]
    rw [ih]
    simp [hne3, hne4]
    omega

def strBytes_mk_map_ofNat : ∀ (vs : List Nat), (∀ v ∈ vs, v < 128) →
    strBytes (String.mk (vs.map Char.ofNat)) = vs
  | [], _ => rfl
  | v :: tl, h => by
    have hv : v < 128 := h v (by simp)
    have ih := strBytes_mk_map_ofNat tl (fun x hx => h x (by simp [hx]))
    simp only [strBytes, List.map_cons, List.flatten] at ih ⊢
    rw [charOfNat_toNat_lt_128 v hv]
    rw [show utf8EncodeNat v = [v] from by unfold utf8EncodeNat; rw [if_pos (by omega)]]
    simpa using ih

def b64_roundtrip (bs : List Nat) (h : ∀ b ∈ bs, b < 256) :
    b64Decode (b64Encode bs) = some bs := by
  unfold b64Decode b64Encode
  rw [strBytes_mk_map_ofNat _ (b64EncodeVals_lt_128 bs)]
  exact b64Vals_roundtrip bs h

/-! ### Data model (internal/database/models.go) -/

/-- database.Challenge. Times are modelled as Int instants; Difficulty,
Memory, Threads, KeyLen are the Go uint32/uint8 cost fields as Nat. -/
structure Challenge where
  ID : String
  Salt : String
  Difficulty : Nat
  Memory : Nat
  Threads : Nat
  KeyLen : Nat
  Target : String
  CreatedAt : Int
  ExpiresAt : Int
  Solved : Bool := false
  SolvedAt : Option Int := none
deriving Repr, DecidableEq

/-- database.Solution. -/
structure Solution where
  ID : String
  ChallengeID : String
  Nonce : String
  Hash : String
  Fingerprint : String
  ClientIP : String
  UserAgent : String
  CreatedAt : Int
  Valid : Bool
deriving Repr, DecidableEq

/-- database.FingerprintData. PixelRatio (Go float64) is modelled as an
exact rational; the validator only compares it against 0.5 and 5.0, which
are exactly representable, so ordinary finite values behave identically. -/
structure FingerprintData where
  UserAgent : String
  Language : String
  Platform : String
  HardwareConcurrency : Int
  MaxTouchPoints : Int
  ColorDepth : Int
  PixelRatio : Rat
  Timezone : String
  CookieEnabled : Bool
  DoNotTrack : String
  ScreenResolution : String
  AvailableScreenResolution : String
deriving Repr, DecidableEq

/-- The persistent store (challenges and solutions tables), modelled as an
explicit value threaded through the operations that touch it. -/
structure DBState where
  challenges : List Challenge
  solutions : List Solution
deriving Repr, DecidableEq

/-- database.DB.GetChallenge: lookup by primary key. -/
def getChallenge (db : DBState) (id : String) : Option Challenge :=
  db.challenges.find? (fun c => c.ID == id)

/-- database.DB.MarkChallengeSolved: UPDATE challenges SET solved = true,
solved_at = NOW() WHERE id = id. -/
def markChallengeSolved (db : DBState) (id : String) (now : Int) : DBState :=
  { db with
    challenges := db.challenges.map (fun c =>
      if c.ID == id then { c with Solved := true, SolvedAt := some now } else c) }

/-- database.DB.CreateSolution: INSERT a solution row. -/
def createSolution (db : DBState) (sol : Solution) : DBState :=
  { db with solutions := db.solutions ++ [sol] }

/-! ### Configuration (internal/config/config.go), restricted to the
fields the verified components read. -/

structure Config where
  /-- Go field Argon2TargetPrefix: required leading hex characters. -/
  Argon2Target : String
  /-- Go field Argon2MaxSolveTime, in seconds. -/
  Argon2MaxSolveTime : Int
deriving Repr, DecidableEq

/-- argon2.Service (its cfg receiver state; the DB handle is passed
explicitly as a DBState to the operations that use it). -/
structure Service where
  cfg : Config
deriving Repr, DecidableEq

/-- The external argon2.IDKey function: password, salt, time, memory,
threads, keyLen to output tag bytes. Kept abstract: the claims are about
which inputs the service feeds it and what it does with the output. -/
abbrev Argon2Fn := List Nat → List Nat → Nat → Nat → Nat → Nat → List Nat

/-! ### SymmetricCipher (internal/crypto/encryption.go) -/

/-- AES-GCM seal (ciphertext plus tag) for a key, nonce and plaintext;
abstract, supplied by the external cipher library. -/
abbrev GCMSealFn := List Nat → List Nat → List Nat → List Nat

/-- AES-GCM open: none models an authentication failure. -/
abbrev GCMOpenFn := List Nat → List Nat → List Nat → Option (List Nat)

/-- gcm.NonceSize() for the standard GCM construction. -/
def gcmNonceSize : Nat := 12

/-- aes.NewCipher accepts exactly 16-, 24- or 32-byte keys. -/
def validAESKeyLen (key : List Nat) : Bool :=
  key.length == 16 || key.length == 24 || key.length == 32

/-- crypto.Encrypt: seal with a fresh nonce, prepend the nonce, base64.
The random nonce is passed explicitly. -/
def Encrypt (sealFn : GCMSealFn) (plaintext key nonce : List Nat) : Except String String :=
  if validAESKeyLen key then
    .ok (b64Encode (nonce ++ sealFn key nonce plaintext))
  else
    .error "failed to create cipher"

/-- crypto.Decrypt: base64-decode, split off the leading nonce, open. -/
def Decrypt (gcmOpen : GCMOpenFn) (ciphertextBase64 : String) (key : List Nat) :
    Except String (List Nat) :=
  match b64Decode ciphertextBase64 with
  | none => .error "failed to decode base64"
  | some ciphertext =>
    if validAESKeyLen key then
      if ciphertext.length < gcmNonceSize then .error "ciphertext too short"
      else
        match gcmOpen key (ciphertext.take gcmNonceSize) (ciphertext.drop gcmNonceSize) with
        | none => .error "failed to decrypt"
        | some plaintext => .ok plaintext
    else .error "failed to create cipher"

/-! ### FingerprintValidator (package fingerprint) -/

def isLowerAlpha (c : Char) : Bool := 'a' ≤ c && c ≤ 'z'

def isUpperAlpha (c : Char) : Bool := 'A' ≤ c && c ≤ 'Z'

/-- Matcher for the regular expression fragment consisting of one or more
digits, a dot, and one or more digits, at the head of the character list. -/
def matchVerAt (cs : List Char) : Bool :=
  match cs with
  | c :: rest =>
    c.isDigit &&
      (match rest.dropWhile Char.isDigit with
       | p :: r2 => p == '.' && (match r2 with | d :: _ => d.isDigit | [] => false)
       | [] => false)
  | [] => false

/-- Unanchored search for a literal token followed by a digits-dot-digits
version number (the shape of every user-agent pattern in the source). -/
def searchTokVer (tok : List Char) : List Char → Bool
  | [] => false
  | c :: rest =>
    (tok.isPrefixOf (c :: rest) && matchVerAt ((c :: rest).drop tok.length)) ||
      searchTokVer tok rest

/-- Unanchored substring search (Go strings.Contains). -/
def containsTok (tok : List Char) : List Char → Bool
  | [] => tok.isPrefixOf []
  | c :: rest => tok.isPrefixOf (c :: rest) || containsTok tok rest

/-- The five user-agent product tokens; each Go pattern is the token
followed by a digits-dot-digits version. -/
def uaPatternToks : List String := ["Mozilla/", "Chrome/", "Safari/", "Firefox/", "Edge/"]

def validateUserAgent (userAgent : String) : Except String Unit :=
  if (strBytes userAgent).length < 10 || (strBytes userAgent).length > 1000 then
    .error "user agent length out of range"
  else if uaPatternToks.any (fun t => searchTokVer t.data userAgent.data) then .ok ()
  else .error "user agent format not recognized"

/-- Anchored match of two lowercase letters optionally followed by a dash
and two uppercase letters. -/
def langFormatOk (cs : List Char) : Bool :=
  match cs with
  | [a, b] => isLowerAlpha a && isLowerAlpha b
  | [a, b, d, e, f] => isLowerAlpha a && isLowerAlpha b && d == '-' && isUpperAlpha e && isUpperAlpha f
  | _ => false

def validateLanguage (language : String) : Except String Unit :=
  if (strBytes language).length < 2 || (strBytes language).length > 10 then
    .error "language format invalid"
  else if langFormatOk language.data then .ok ()
  else .error "language code format invalid"

def validPlatforms : List String :=
  ["Win32", "MacIntel", "Linux x86_64", "Linux i686", "iPhone", "iPad", "Android", "X11"]

def validatePlatform (platform : String) : Except String Unit :=
  if validPlatforms.any (fun t => containsTok t.data platform.data) then .ok ()
  else .error "platform not recognized"

def validateHardwareConcurrency (concurrency : Int) : Except String Unit :=
  if concurrency < 1 || concurrency > 128 then .error "hardware concurrency out of range"
  else .ok ()

def validateMaxTouchPoints (points : Int) : Except String Unit :=
  if points < 0 || points > 10 then .error "max touch points out of range"
  else .ok ()

def validateColorDepth (depth : Int) : Except String Unit :=
  if [8, 16, 24, 30, 32, 48].contains depth then .ok ()
  else .error "color depth not valid"

def validatePixelRatio (ratio : Rat) : Except String Unit :=
  if ratio < (1 / 2 : Rat) || ratio > 5 then .error "pixel ratio out of range"
  else .ok ()

/-- Decimal digit parsing for nonempty digit strings. -/
def parseDigits (cs : List Char) : Nat :=
  cs.foldl (fun acc c => acc * 10 + (c.toNat - 48)) 0

/-- Anchored match of an optional minus sign followed by one or more
digits. -/
def tzFormatOk (cs : List Char) : Bool :=
  match cs with
  | '-' :: rest => !rest.isEmpty && rest.all Char.isDigit
  | rest => !rest.isEmpty && rest.all Char.isDigit

/-- strconv.Atoi for a signed decimal string (overflow is irrelevant at
the ranges checked by the callers, see the range comparisons there). -/
def atoiInt (cs : List Char) : Option Int :=
  match cs with
  | [] => none
  | '+' :: rest =>
    if !rest.isEmpty && rest.all Char.isDigit then some (parseDigits rest : Nat) else none
  | '-' :: rest =>
    if !rest.isEmpty && rest.all Char.isDigit then some (-(parseDigits rest : Nat) : Int) else none
  | _ =>
    if cs.all Char.isDigit then some (parseDigits cs : Nat) else none

def validateTimezone (timezone : String) : Except String Unit :=
  if (strBytes timezone).length == 0 || (strBytes timezone).length > 10 then
    .error "timezone length out of range"
  else if !tzFormatOk timezone.data then
    .error "timezone format invalid - should be numeric offset"
  else
    match atoiInt timezone.data with
    | none => .error "timezone not a valid number"
    | some offset =>
      if offset < -840 || offset > 720 then .error "timezone offset out of valid range"
      else .ok ()

def validateDoNotTrack (dnt : String) : Except String Unit :=
  if ["1", "0", "unspecified", "null", ""].contains dnt then .ok ()
  else .error "do not track value invalid"

/-- strings.Split on a single separator character. -/
def splitOnChar (sep : Char) : List Char → List (List Char)
  | [] => [[]]
  | c :: rest =>
    let r := splitOnChar sep rest
    if c == sep then [] :: r
    else
      match r with
      | h :: t => (c :: h) :: t
      | [] => [[c]]

def validateScreenResolution (resolution : String) : Except String Unit :=
  if resolution == "" then .error "screen resolution cannot be empty"
  else
    match splitOnChar 'x' resolution.data with
    | [w, h] =>
      match atoiInt w with
      | some width =>
        if width < 100 || width > 10000 then .error "screen width out of range"
        else
          match atoiInt h with
          | some height =>
            if height < 100 || height > 10000 then .error "screen height out of range"
            else .ok ()
          | none => .error "screen height out of range"
      | none => .error "screen width out of range"
    | _ => .error "screen resolution format invalid"

/-- Validator.validateFingerprintFields: field-local checks applied in
source order, stopping at the first failure with a wrapped message. -/
def validateFingerprintFields (fp : FingerprintData) : Except String Unit :=
  match validateUserAgent fp.UserAgent with
  | .error e => .error ("invalid user agent: " ++ e)
  | .ok _ =>
  match validateLanguage fp.Language with
  | .error e => .error ("invalid language: " ++ e)
  | .ok _ =>
  match validatePlatform fp.Platform with
  | .error e => .error ("invalid platform: " ++ e)
  | .ok _ =>
  match validateHardwareConcurrency fp.HardwareConcurrency with
  | .error e => .error ("invalid hardware concurrency: " ++ e)
  | .ok _ =>
  match validateMaxTouchPoints fp.MaxTouchPoints with
  | .error e => .error ("invalid max touch points: " ++ e)
  | .ok _ =>
  match validateColorDepth fp.ColorDepth with
  | .error e => .error ("invalid color depth: " ++ e)
  | .ok _ =>
  match validatePixelRatio fp.PixelRatio with
  | .error e => .error ("invalid pixel ratio: " ++ e)
  | .ok _ =>
  match validateTimezone fp.Timezone with
  | .error e => .error ("invalid timezone: " ++ e)
  | .ok _ =>
  match validateDoNotTrack fp.DoNotTrack with
  | .error e => .error ("invalid do not track: " ++ e)
  | .ok _ =>
  match validateScreenResolution fp.ScreenResolution with
  | .error e => .error ("invalid screen resolution: " ++ e)
  | .ok _ =>
  match validateScreenResolution fp.AvailableScreenResolution with
  | .error e => .error ("invalid available screen resolution: " ++ e)
  | .ok _ => .ok ()

/-- The external encoding/json Unmarshal into FingerprintData, abstract. -/
abbrev UnmarshalFn := List Nat → Option FingerprintData

/-- The decode stages of Validator.ValidateFingerprint: authenticated
decrypt, byte reversal, base64 decode, JSON parse (the ObfuscationCodec
Decode direction), with the wrapped error messages of the source. -/
def decodeFingerprintToken (gcmOpen : GCMOpenFn) (unmarshal : UnmarshalFn)
    (key : List Nat) (encryptedFingerprint : String) : Except String FingerprintData :=
  match Decrypt gcmOpen encryptedFingerprint key with
  | .error e => .error ("failed to decrypt fingerprint: " ++ e)
  | .ok decryptedData =>
    match b64DecodeVals (ReverseBytes decryptedData) with
    | none => .error "failed to decode base64 fingerprint"
    | some jsonData =>
      match unmarshal jsonData with
      | none => .error "failed to parse fingerprint JSON"
      | some fingerprint => .ok fingerprint

/-- Validator.ValidateFingerprint: decode the token, then validate the
fields, wrapping the validation error. -/
def ValidateFingerprint (gcmOpen : GCMOpenFn) (unmarshal : UnmarshalFn)
    (key : List Nat) (encryptedFingerprint : String) : Except String FingerprintData :=
  match decodeFingerprintToken gcmOpen unmarshal key encryptedFingerprint with
  | .error e => .error e
  | .ok fingerprint =>
    match validateFingerprintFields fingerprint with
    | .error e => .error ("fingerprint validation failed: " ++ e)
    | .ok _ => .ok fingerprint

/-- wasm/main.go collectFingerprint, encode stages (the client side of
the ObfuscationCodec): json.Marshal the record, base64-encode the JSON
bytes to a string, reverse that string rune-wise with reverseString, and
pass its byte view to the wasm encrypt function — which is line for line
the server's crypto.Encrypt (fresh nonce, Seal(nonce, nonce, pt, nil),
base64), so it is modelled by the same Encrypt definition. -/
def EncodeFingerprint (sealFn : GCMSealFn) (marshal : FingerprintData → List Nat)
    (d : FingerprintData) (key nonce : List Nat) : Except String String :=
  Encrypt sealFn (strBytes (reverseString (b64Encode (marshal d)))) key nonce

/-! ### SolutionVerifier (package argon2) -/

/-- Service.hasValidPrefix (Go name kept up to casing constraints):
strings.HasPrefix on the hash and the challenge target. -/
def hasValidTarget (_s : Service) (hash target : String) : Bool :=
  target.data.isPrefixOf hash.data

/-- Service.verifySolution: decode the stored salt, hash the stored salt
string concatenated with the nonce under the challenge's own cost
parameters, hex-render, and apply the admission predicate. -/
def verifySolution (s : Service) (idKey : Argon2Fn) (challenge : Challenge)
    (nonce providedHash : String) : Except String Bool :=
  match b64Decode challenge.Salt with
  | none => .error "failed to decode salt"
  | some salt =>
    let inputData := challenge.Salt ++ nonce
    let hash := idKey (strBytes inputData) salt
      challenge.Difficulty challenge.Memory challenge.Threads challenge.KeyLen
    let computedHash := hexEncode hash
    .ok (computedHash == providedHash && hasValidTarget s computedHash challenge.Target)

/-- Service.VerifySolution: guards (lookup, expiry, solved), inner
verification, solution persistence, and the solved-flag transition.
The pair result carries the store state after the call; store writes are
modelled as infallible. The random solution id is passed explicitly. -/
def VerifySolution (s : Service) (idKey : Argon2Fn) (db : DBState) (now : Int)
    (solutionID challengeID nonce hash fingerprint clientIP userAgent : String) :
    Except String Solution × DBState :=
  match getChallenge db challengeID with
  | none => (.error "challenge not found", db)
  | some challenge =>
    if now > challenge.ExpiresAt then (.error "challenge expired", db)
    else if challenge.Solved then (.error "challenge already solved", db)
    else
      match verifySolution s idKey challenge nonce hash with
      | .error e => (.error ("failed to verify solution: " ++ e), db)
      | .ok valid =>
        let solution : Solution :=
          { ID := solutionID, ChallengeID := challengeID, Nonce := nonce, Hash := hash
            Fingerprint := fingerprint, ClientIP := clientIP, UserAgent := userAgent
            CreatedAt := now, Valid := valid }
        let db1 := createSolution db solution
        if valid then (.ok solution, markChallengeSolved db1 challengeID now)
        else (.ok solution, db1)

/-- Go run-time left shift of the int64 literal 1 by `s` bits: two's
complement interpretation of 2 to the s modulo 2 to the 64 (shift counts
of 64 or more produce 0). -/
def goShiftL1 (s : Nat) : Int :=
  if 2 ^ s % 2 ^ 64 < 2 ^ 63 then (2 ^ s % 2 ^ 64 : Nat)
  else (2 ^ s % 2 ^ 64 : Nat) - 2 ^ 64

/-- Service.EstimateSolveTime, in seconds (Go wraps the value into a
time.Duration of that many seconds). Division is Go integer division,
truncating toward zero. -/
def EstimateSolveTime (s : Service) : Int :=
  let prefixLength := (strBytes s.cfg.Argon2Target).length
  let estimatedAttempts := goShiftL1 (prefixLength * 4)
  let hashesPerSecond : Int := 100
  let estimatedSeconds := Int.tdiv estimatedAttempts hashesPerSecond
  let maxSeconds := s.cfg.Argon2MaxSolveTime
  if estimatedSeconds > maxSeconds then maxSeconds else estimatedSeconds

/-! ### RequestOrchestrator (package handlers, VerifyHandler core) -/

structure VerifyRequest where
  ChallengeID : String
  Nonce : String
  Hash : String
  Fingerprint : String
deriving Repr, DecidableEq

structure VerifyResponse where
  Valid : Bool
  Message : String
deriving Repr, DecidableEq

/-- Handler.VerifyHandler after request decoding: fingerprint validation
(any failure collapsed to the generic response), then solution
verification; `marshal2` is the external json.Marshal used to store the
validated fingerprint alongside the solution. -/
def VerifyHandler (gcmOpen : GCMOpenFn) (unmarshal : UnmarshalFn)
    (marshal2 : FingerprintData → String) (key : List Nat) (s : Service)
    (idKey : Argon2Fn) (db : DBState) (now : Int) (solutionID : String)
    (req : VerifyRequest) (clientIP userAgent : String) : VerifyResponse × DBState :=
  match ValidateFingerprint gcmOpen unmarshal key req.Fingerprint with
  | .error _ => ({ Valid := false, Message := "Fingerprint validation failed" }, db)
  | .ok fingerprintData =>
    match VerifySolution s idKey db now solutionID req.ChallengeID req.Nonce req.Hash
        (marshal2 fingerprintData) clientIP userAgent with
    | (.error e, db2) => ({ Valid := false, Message := "Verification failed: " ++ e }, db2)
    | (.ok sol, db2) =>
      ({ Valid := sol.Valid
         Message := if sol.Valid then "Captcha solved successfully" else "Invalid solution" }, db2)

/-! ### Concrete instances used to exercise the theorems -/

/-- A degenerate hash function instance (constant empty tag): the service
theorems hold for every Argon2Fn, so any instance can exercise them. -/
def idKey0 : Argon2Fn := fun _ _ _ _ _ _ => []

def svc0 : Service := { cfg := { Argon2Target := "000", Argon2MaxSolveTime := 6 } }

/-- A challenge that is both solved and past expiry at instant 1. -/
def chSolvedExpired : Challenge :=
  { ID := "c1", Salt := "", Difficulty := 3, Memory := 65536, Threads := 1, KeyLen := 32
    Target := "000", CreatedAt := 0, ExpiresAt := 0, Solved := true, SolvedAt := some 0 }

def dbSolvedExpired : DBState := { challenges := [chSolvedExpired], solutions := [] }

/-- A solved challenge that has not yet expired at instants up to 100. -/
def chSolved : Challenge :=
  { ID := "c1", Salt := "", Difficulty := 3, Memory := 65536, Threads := 1, KeyLen := 32
    Target := "000", CreatedAt := 0, ExpiresAt := 100, Solved := true, SolvedAt := some 0 }

def dbSolved : DBState := { challenges := [chSolved], solutions := [] }

/-- An unsolved live challenge whose expiry instant is exactly 5; its
stored salt is the empty base64 string and its target is empty. -/
def chBoundary : Challenge :=
  { ID := "c1", Salt := "", Difficulty := 3, Memory := 65536, Threads := 1, KeyLen := 32
    Target := "", CreatedAt := 0, ExpiresAt := 5, Solved := false, SolvedAt := none }

def dbBoundary : DBState := { challenges := [chBoundary], solutions := [] }

/-- A trivial cipher instance: seal is the identity on the plaintext and
open returns the ciphertext; they satisfy the open-after-seal contract. -/
def sealFn0 : GCMSealFn := fun _ _ pt => pt

def gcmOpen0 : GCMOpenFn := fun _ _ ct => some ct

/-- A fingerprint record with all-default fields (used only through the
codec, which never validates). -/
def fpEx : FingerprintData :=
  ⟨"", "", "", 0, 0, 0, 0, "", false, "", "", ""⟩

def marshal0 : FingerprintData → List Nat := fun _ => [65]

def unmarshal0 : UnmarshalFn := fun bs => if bs = [65] then some fpEx else none

def key0 : List Nat := List.replicate 32 0

def nonce0 : List Nat := List.replicate 12 0

def uaOK : String := "Mozilla/5.0 (Windows NT 10.0; Win64; x64)"

/-- A fingerprint whose browser identity, language and platform pass their
rules but whose core count (256) is out of range. -/
def fpBad : FingerprintData :=
  ⟨uaOK, "en", "Win32", 256, 0, 24, 1, "0", true, "1", "800x600", "800x600"⟩

def unmarshalBad : UnmarshalFn := fun bs => if bs = [65] then some fpBad else none

def marshalStr0 : FingerprintData → String := fun _ => "fpjson"

/-- A request whose fingerprint token decodes to fewer bytes than the
cipher nonce, so authenticated decryption fails. -/
def req1Ex : VerifyRequest := ⟨"c1", "n", "h", ""⟩

/-- A token that decrypts and decodes to the JSON bytes of fpBad. -/
def tok2Ex : String := b64Encode (nonce0 ++ [61, 61, 81, 81])

def req2Ex : VerifyRequest := ⟨"c1", "n", "h", tok2Ex⟩

/-! ## Theorems -/

/-! ### Generic helper lemmas -/

theorem foldl_cons_eq_reverse_append (l : List Nat) :
    ∀ acc : List Nat, l.foldl (fun acc b => b :: acc) acc = l.reverse ++ acc := by
  induction l with
  | nil => intro acc; simp
  | cons x xs ih => intro acc; simp [List.foldl, ih]

theorem reverseBytes_eq_reverse (l : List Nat) : ReverseBytes l = l.reverse := by
  unfold ReverseBytes
  rw [foldl_cons_eq_reverse_append l []]
  simp

theorem reverseBytes_reverseBytes (l : List Nat) : ReverseBytes (ReverseBytes l) = l := by
  simp [reverseBytes_eq_reverse]

theorem verify_wrap_ne_expired (e : String) :
    ("failed to verify solution: " ++ e) ≠ "challenge expired" := by
  intro h
  have h2 := congrArg String.length h
  rw [String.length_append] at h2
  have hl1 : ("failed to verify solution: ").length = 27 := rfl
  have hl2 : ("challenge expired").length = 17 := rfl
  omega

/-! ### Claims -/

/-- C1: For every challenge, nonce, and submitted hash string,
VerifySolution records the attempt as valid if and only if the
server-recomputed Argon2id hash, rendered as lowercase hex, is
string-equal to the client-submitted hash and starts with the challenge's
stored target prefix; if either conjunct fails the attempt is recorded as
invalid. -/
theorem C1_valid_iff_admission (s : Service) (idKey : Argon2Fn) (db : DBState) (now : Int)
    (sid cid nonce hash fp ip ua : String) (ch : Challenge) (salt : List Nat)
    (sol : Solution) (db2 : DBState)
    (hch : getChallenge db cid = some ch)
    (hsalt : b64Decode ch.Salt = some salt)
    (hrun : VerifySolution s idKey db now sid cid nonce hash fp ip ua = (.ok sol, db2)) :
    (sol.Valid = true ↔
      (hexEncode (idKey (strBytes (ch.Salt ++ nonce)) salt
          ch.Difficulty ch.Memory ch.Threads ch.KeyLen) = hash ∧
       ch.Target.data.isPrefixOf (hexEncode (idKey (strBytes (ch.Salt ++ nonce)) salt
          ch.Difficulty ch.Memory ch.Threads ch.KeyLen)).data = true)) := by
  unfold VerifySolution at hrun
  simp only [hch] at hrun
  by_cases hexp : now > ch.ExpiresAt
  · rw [if_pos hexp] at hrun; simp at hrun
  · rw [if_neg hexp] at hrun
    by_cases hsolved : ch.Solved
    · rw [if_pos hsolved] at hrun; simp at hrun
    · rw [if_neg hsolved] at hrun
      unfold verifySolution at hrun
      simp only [hsalt] at hrun
      have h1 := congrArg Prod.fst hrun
      simp only [apply_ite Prod.fst, ite_self, Except.ok.injEq] at h1
      rw [← h1]
      simp [hasValidTarget, Bool.and_eq_true, beq_iff_eq]

/-- C1 witness: a concrete successful verification through
VerifySolution, with the admission predicate evaluated on it. -/
theorem C1_witness :
    ((Solution.mk "s1" "c1" "" "" "fp" "ip" "ua" 0 true).Valid = true ↔
      (hexEncode (idKey0 (strBytes (chBoundary.Salt ++ "")) []
          chBoundary.Difficulty chBoundary.Memory chBoundary.Threads chBoundary.KeyLen) = "" ∧
       chBoundary.Target.data.isPrefixOf
         (hexEncode (idKey0 (strBytes (chBoundary.Salt ++ "")) []
           chBoundary.Difficulty chBoundary.Memory chBoundary.Threads chBoundary.KeyLen)).data = true)) :=
  C1_valid_iff_admission svc0 idKey0 dbBoundary 0 "s1" "c1" "" "" "fp" "ip" "ua"
    chBoundary [] (Solution.mk "s1" "c1" "" "" "fp" "ip" "ua" 0 true)
    (markChallengeSolved (createSolution dbBoundary (Solution.mk "s1" "c1" "" "" "fp" "ip" "ua" 0 true)) "c1" 0)
    rfl rfl rfl

/-- C2 counterexample: a challenge that is solved but also past expiry
fails with the expired-challenge error, not the already-solved error, so
"any VerifySolution call for a solved challenge fails with an
already-solved error" is false as stated. -/
theorem C2_cex :
    (getChallenge dbSolvedExpired "c1").map Challenge.Solved = some true ∧
    (VerifySolution svc0 idKey0 dbSolvedExpired 1 "s1" "c1" "n" "h" "fp" "ip" "ua").1 =
      .error "challenge expired" ∧
    "challenge expired" ≠ "challenge already solved" :=
  ⟨rfl, rfl, by decide⟩

/-- C2 amended: for every challenge whose solved flag is true, a
VerifySolution call at an instant not after expiry fails with the
already-solved error; and at every instant the call fails with some error
that is independent of the hash function, nonce and hash, leaving the
store unchanged — so a solved challenge is never re-validated and the
solved-flag transition occurs at most once. -/
theorem C2_amended (s : Service) (idKey : Argon2Fn) (db : DBState) (now : Int)
    (sid cid nonce hash fp ip ua : String) (ch : Challenge)
    (hch : getChallenge db cid = some ch) (hsolved : ch.Solved = true) :
    (¬ now > ch.ExpiresAt →
      VerifySolution s idKey db now sid cid nonce hash fp ip ua =
        (.error "challenge already solved", db)) ∧
    (∃ e : String, ∀ (g : Argon2Fn) (nonce2 hash2 : String),
      VerifySolution s g db now sid cid nonce2 hash2 fp ip ua = (.error e, db)) := by
  constructor
  · intro hexp
    unfold VerifySolution
    simp only [hch]
    rw [if_neg hexp, if_pos hsolved]
  · by_cases hexp : now > ch.ExpiresAt
    · exact ⟨"challenge expired", fun g n2 h2 => by
        unfold VerifySolution
        simp only [hch]
        rw [if_pos hexp]⟩
    · exact ⟨"challenge already solved", fun g n2 h2 => by
        unfold VerifySolution
        simp only [hch]
        rw [if_neg hexp, if_pos hsolved]⟩

/-- C2 witness: a concrete solved, unexpired challenge rejected with the
already-solved error and an unchanged store. -/
theorem C2_witness :
    VerifySolution svc0 idKey0 dbSolved 0 "s1" "c1" "n" "h" "fp" "ip" "ua" =
      (.error "challenge already solved", dbSolved) :=
  (C2_amended svc0 idKey0 dbSolved 0 "s1" "c1" "n" "h" "fp" "ip" "ua"
    chSolved rfl rfl).1 (by decide)

/-- C3 counterexample: a Verify call on an already-solved challenge is a
verification attempt that persists no Solution row, so "a Solution row is
persisted for every verification attempt, whatever its outcome" is false
as stated. -/
theorem C3_cex :
    dbSolved.solutions = [] ∧
    (VerifySolution svc0 idKey0 dbSolved 1 "s1" "c1" "n" "h" "fp" "ip" "ua").1 =
      .error "challenge already solved" ∧
    (VerifySolution svc0 idKey0 dbSolved 1 "s1" "c1" "n" "h" "fp" "ip" "ua").2.solutions = [] :=
  ⟨rfl, rfl, rfl⟩

/-- C3 amended: a Solution row is persisted exactly when the call passes
the lookup, expiry, solved and salt-decode guards (the admission predicate
is then actually evaluated, and the row's validity flag equals its
result); a call that fails any of those guards persists nothing. Handler-
level fingerprint failures never reach VerifySolution at all. -/
theorem C3_amended (s : Service) (idKey : Argon2Fn) (db : DBState) (now : Int)
    (sid cid nonce hash fp ip ua : String) :
    (∀ (ch : Challenge) (salt : List Nat), getChallenge db cid = some ch →
      ¬ now > ch.ExpiresAt → ch.Solved = false → b64Decode ch.Salt = some salt →
      (VerifySolution s idKey db now sid cid nonce hash fp ip ua).2.solutions =
        db.solutions ++ [Solution.mk sid cid nonce hash fp ip ua now
          (hexEncode (idKey (strBytes (ch.Salt ++ nonce)) salt
              ch.Difficulty ch.Memory ch.Threads ch.KeyLen) == hash
            && hasValidTarget s (hexEncode (idKey (strBytes (ch.Salt ++ nonce)) salt
              ch.Difficulty ch.Memory ch.Threads ch.KeyLen)) ch.Target)]) ∧
    ((getChallenge db cid = none ∨ ∃ ch, getChallenge db cid = some ch ∧
        (now > ch.ExpiresAt ∨ ch.Solved = true ∨ b64Decode ch.Salt = none)) →
      (VerifySolution s idKey db now sid cid nonce hash fp ip ua).2.solutions = db.solutions) := by
  constructor
  · intro ch salt hch hexp hsolved hsalt
    unfold VerifySolution
    simp only [hch]
    rw [if_neg hexp, if_neg (by simp [hsolved])]
    unfold verifySolution
    simp only [hsalt]
    split
    · simp [markChallengeSolved, createSolution]
    · simp [createSolution]
  · intro hbad
    rcases hbad with hnone | ⟨ch, hch, hfail⟩
    · unfold VerifySolution
      simp only [hnone]
    · unfold VerifySolution
      simp only [hch]
      rcases hfail with hexp | hsolved | hsalt
      · rw [if_pos hexp]
      · by_cases hexp : now > ch.ExpiresAt
        · rw [if_pos hexp]
        · rw [if_neg hexp, if_pos hsolved]
      · by_cases hexp : now > ch.ExpiresAt
        · rw [if_pos hexp]
        · rw [if_neg hexp]
          by_cases hsolved : ch.Solved
          · rw [if_pos hsolved]
          · rw [if_neg hsolved]
            unfold verifySolution
            simp only [hsalt]

/-- C3 witness: a concrete guarded-through call appending exactly one row
whose validity flag is the admission predicate's value. -/
theorem C3_witness :
    (VerifySolution svc0 idKey0 dbBoundary 0 "s1" "c1" "" "x" "fp" "ip" "ua").2.solutions =
      dbBoundary.solutions ++ [Solution.mk "s1" "c1" "" "x" "fp" "ip" "ua" 0
        (hexEncode (idKey0 (strBytes (chBoundary.Salt ++ "")) []
            chBoundary.Difficulty chBoundary.Memory chBoundary.Threads chBoundary.KeyLen) == "x"
          && hasValidTarget svc0 (hexEncode (idKey0 (strBytes (chBoundary.Salt ++ "")) []
            chBoundary.Difficulty chBoundary.Memory chBoundary.Threads chBoundary.KeyLen)) chBoundary.Target)] :=
  (C3_amended svc0 idKey0 dbBoundary 0 "s1" "c1" "" "x" "fp" "ip" "ua").1
    chBoundary [] rfl (by decide) rfl rfl

/-- C4: the recomputed hash in verifySolution is the abstract Argon2id
function applied to the byte view of the stored (text-encoded) salt
concatenated with the submitted nonce, with the decoded salt bytes as the
salt argument and the challenge's own stored cost parameters; the result
is independent of the service configuration and depends only on the
stored salt, the nonce and the stored cost parameters. -/
theorem C4_hash_inputs (s : Service) (idKey : Argon2Fn) (ch : Challenge)
    (nonce providedHash : String) (salt : List Nat)
    (hsalt : b64Decode ch.Salt = some salt) :
    (verifySolution s idKey ch nonce providedHash = .ok
      (hexEncode (idKey (strBytes (ch.Salt ++ nonce)) salt
          ch.Difficulty ch.Memory ch.Threads ch.KeyLen) == providedHash
        && hasValidTarget s (hexEncode (idKey (strBytes (ch.Salt ++ nonce)) salt
          ch.Difficulty ch.Memory ch.Threads ch.KeyLen)) ch.Target)) ∧
    (∀ s2 : Service, verifySolution s2 idKey ch nonce providedHash =
      verifySolution s idKey ch nonce providedHash) ∧
    (∀ ch2 : Challenge, ch2.Salt = ch.Salt → ch2.Difficulty = ch.Difficulty →
      ch2.Memory = ch.Memory → ch2.Threads = ch.Threads → ch2.KeyLen = ch.KeyLen →
      hexEncode (idKey (strBytes (ch2.Salt ++ nonce)) salt
          ch2.Difficulty ch2.Memory ch2.Threads ch2.KeyLen) =
        hexEncode (idKey (strBytes (ch.Salt ++ nonce)) salt
          ch.Difficulty ch.Memory ch.Threads ch.KeyLen)) := by
  refine ⟨?_, ?_, ?_⟩
  · unfold verifySolution
    simp only [hsalt]
  · intro s2
    unfold verifySolution
    simp only [hsalt]
    rfl
  · intro ch2 h1 h2 h3 h4 h5
    rw [h1, h2, h3, h4, h5]

/-- C4 witness: the formula evaluated on a concrete challenge. -/
theorem C4_witness :
    verifySolution svc0 idKey0 chBoundary "" "" = .ok
      (hexEncode (idKey0 (strBytes (chBoundary.Salt ++ "")) []
          chBoundary.Difficulty chBoundary.Memory chBoundary.Threads chBoundary.KeyLen) == ""
        && hasValidTarget svc0 (hexEncode (idKey0 (strBytes (chBoundary.Salt ++ "")) []
          chBoundary.Difficulty chBoundary.Memory chBoundary.Threads chBoundary.KeyLen)) chBoundary.Target) :=
  (C4_hash_inputs svc0 idKey0 chBoundary "" "" [] rfl).1

/-- C5 counterexample: a Verify call at exactly the expiry instant
(now = expiry = 5) is NOT treated as expired — it proceeds all the way to
a persisted (here invalid) solution — so "now == expiry fails with an
expired-challenge error" is false as stated. -/
theorem C5_cex :
    chBoundary.ExpiresAt = 5 ∧
    (VerifySolution svc0 idKey0 dbBoundary 5 "s1" "c1" "n" "h" "fp" "ip" "ua").1 =
      .ok (Solution.mk "s1" "c1" "n" "h" "fp" "ip" "ua" 5 false) ∧
    (VerifySolution svc0 idKey0 dbBoundary 5 "s1" "c1" "n" "h" "fp" "ip" "ua").1 ≠
      .error "challenge expired" := by
  refine ⟨rfl, rfl, ?_⟩
  intro h
  rw [show (VerifySolution svc0 idKey0 dbBoundary 5 "s1" "c1" "n" "h" "fp" "ip" "ua").1 =
    .ok (Solution.mk "s1" "c1" "n" "h" "fp" "ip" "ua" 5 false) from rfl] at h
  exact Except.noConfusion h

/-- C5 amended: the expiry test uses strict now > expiry semantics: a
Verify call fails with the expired-challenge error exactly when the
current instant is strictly after the challenge's expiry, so a call at
exactly the expiry instant is NOT treated as expired. -/
theorem C5_amended (s : Service) (idKey : Argon2Fn) (db : DBState) (now : Int)
    (sid cid nonce hash fp ip ua : String) (ch : Challenge)
    (hch : getChallenge db cid = some ch) :
    ((VerifySolution s idKey db now sid cid nonce hash fp ip ua).1 =
        .error "challenge expired" ↔ now > ch.ExpiresAt) := by
  constructor
  · intro h
    by_contra hexp
    unfold VerifySolution at h
    simp only [hch] at h
    rw [if_neg hexp] at h
    by_cases hs : ch.Solved
    · rw [if_pos hs] at h
      simp only [Prod.fst] at h
      injection h with h2
      exact absurd h2 (by decide)
    · rw [if_neg hs] at h
      cases hv : verifySolution s idKey ch nonce hash with
      | error e =>
        simp only [hv] at h
        injection h with h2
        exact verify_wrap_ne_expired e h2
      | ok v =>
        simp only [hv] at h
        rcases v with _ | _
        · simp at h
        · simp at h
  · intro hexp
    unfold VerifySolution
    simp only [hch]
    rw [if_pos hexp]

/-- C5 witness: a strictly-past-expiry call does fail with the expired
error. -/
theorem C5_witness :
    (VerifySolution svc0 idKey0 dbSolvedExpired 1 "s1" "c1" "n" "h" "fp" "ip" "ua").1 =
      .error "challenge expired" :=
  (C5_amended svc0 idKey0 dbSolvedExpired 1 "s1" "c1" "n" "h" "fp" "ip" "ua"
    chSolvedExpired rfl).mpr (by decide)

/-- Bridge between the client and server reversal steps: the byte view
of the rune-reversed base64 string is the reversal of the base64 byte
values (the base64 alphabet is ASCII, so rune reversal, byte reversal
and value reversal coincide there). -/
theorem strBytes_reverseString_b64Encode (bs : List Nat) :
    strBytes (reverseString (b64Encode bs)) = (b64EncodeVals bs).reverse := by
  unfold reverseString b64Encode
  rw [show (String.mk ((b64EncodeVals bs).map Char.ofNat)).data =
    (b64EncodeVals bs).map Char.ofNat from rfl]
  rw [← List.map_reverse]
  exact strBytes_mk_map_ofNat _ (fun v hv =>
    b64EncodeVals_lt_128 bs v (List.mem_reverse.mp hv))

/-- C6: for every fingerprint record and 256-bit key, decoding the token
produced by the client encode pipeline of wasm/main.go collectFingerprint
(JSON-serialize, base64-encode, reverse, authenticated-encrypt) through
the server decode pipeline (decrypt, reverse, base64-decode, parse)
yields the record again, given the open-after-seal and
parse-after-serialize contracts of the external cipher and JSON
libraries. -/
theorem C6_roundtrip (sealFn : GCMSealFn) (gcmOpen : GCMOpenFn)
    (marshal : FingerprintData → List Nat) (unmarshal : UnmarshalFn)
    (d : FingerprintData) (key nonce : List Nat) (tok : String)
    (hkey : key.length = 32)
    (hnlen : nonce.length = gcmNonceSize)
    (hnb : ∀ b ∈ nonce, b < 256)
    (hmb : ∀ b ∈ marshal d, b < 256)
    (hsb : ∀ b ∈ sealFn key nonce (strBytes (reverseString (b64Encode (marshal d)))), b < 256)
    (hopen : gcmOpen key nonce
        (sealFn key nonce (strBytes (reverseString (b64Encode (marshal d))))) =
      some (strBytes (reverseString (b64Encode (marshal d)))))
    (hunm : unmarshal (marshal d) = some d)
    (henc : EncodeFingerprint sealFn marshal d key nonce = .ok tok) :
    decodeFingerprintToken gcmOpen unmarshal key tok = .ok d := by
  have hkeyok : validAESKeyLen key = true := by simp [validAESKeyLen, hkey]
  have hrev : strBytes (reverseString (b64Encode (marshal d))) =
      (b64EncodeVals (marshal d)).reverse := strBytes_reverseString_b64Encode _
  unfold EncodeFingerprint Encrypt at henc
  rw [if_pos hkeyok] at henc
  injection henc with htok
  subst htok
  have hdec : b64Decode (b64Encode (nonce ++
      sealFn key nonce (strBytes (reverseString (b64Encode (marshal d)))))) =
      some (nonce ++ sealFn key nonce (strBytes (reverseString (b64Encode (marshal d))))) := by
    refine b64_roundtrip _ ?_
    intro b hb
    rcases List.mem_append.mp hb with h | h
    · exact hnb b h
    · exact hsb b h
  have hlen : ¬ ((nonce ++
      sealFn key nonce (strBytes (reverseString (b64Encode (marshal d))))).length <
      gcmNonceSize) := by
    rw [List.length_append, hnlen]
    omega
  unfold decodeFingerprintToken Decrypt
  simp only [hdec]
  rw [if_pos hkeyok, if_neg hlen]
  rw [← hnlen, List.take_left, List.drop_left]
  simp only [hopen]
  rw [hrev, reverseBytes_eq_reverse, List.reverse_reverse]
  rw [b64Vals_roundtrip _ hmb]
  simp only [hunm]

/-- C6 witness: a concrete record encoded through the client pipeline and
decoded with a trivial cipher and serializer satisfying the library
contracts. -/
theorem C6_witness :
    decodeFingerprintToken gcmOpen0 unmarshal0 key0
      (b64Encode (nonce0 ++ strBytes (reverseString (b64Encode [65])))) = .ok fpEx :=
  C6_roundtrip sealFn0 gcmOpen0 marshal0 unmarshal0 fpEx key0 nonce0
    (b64Encode (nonce0 ++ strBytes (reverseString (b64Encode [65]))))
    (by decide) (by decide) (by decide) (by decide) (by decide) rfl rfl rfl

/-- C7: a request whose fingerprint ciphertext fails authenticated
decryption and a request whose decrypted fingerprint fails a
field-validation rule receive the identical generic response (validity
false, message "Fingerprint validation failed"), with the store left
unchanged: the two failure classes are never distinguished to the
client. -/
theorem C7_indistinguishable (gcmOpen : GCMOpenFn) (unmarshal : UnmarshalFn)
    (marshal2 : FingerprintData → String) (key : List Nat) (s : Service) (idKey : Argon2Fn)
    (db : DBState) (now : Int) (sid : String) (req1 req2 : VerifyRequest)
    (ip1 ua1 ip2 ua2 e1 : String) (dec2 jsonData2 : List Nat) (fp2 : FingerprintData)
    (e2 : String)
    (h1 : Decrypt gcmOpen req1.Fingerprint key = .error e1)
    (h2 : Decrypt gcmOpen req2.Fingerprint key = .ok dec2)
    (h3 : b64DecodeVals (ReverseBytes dec2) = some jsonData2)
    (h4 : unmarshal jsonData2 = some fp2)
    (h5 : validateFingerprintFields fp2 = .error e2) :
    VerifyHandler gcmOpen unmarshal marshal2 key s idKey db now sid req1 ip1 ua1 =
      ({ Valid := false, Message := "Fingerprint validation failed" }, db) ∧
    VerifyHandler gcmOpen unmarshal marshal2 key s idKey db now sid req2 ip2 ua2 =
      ({ Valid := false, Message := "Fingerprint validation failed" }, db) ∧
    (VerifyHandler gcmOpen unmarshal marshal2 key s idKey db now sid req1 ip1 ua1).1 =
      (VerifyHandler gcmOpen unmarshal marshal2 key s idKey db now sid req2 ip2 ua2).1 := by
  have hv1 : ValidateFingerprint gcmOpen unmarshal key req1.Fingerprint =
      .error ("failed to decrypt fingerprint: " ++ e1) := by
    unfold ValidateFingerprint decodeFingerprintToken
    simp only [h1]
  have hv2 : ValidateFingerprint gcmOpen unmarshal key req2.Fingerprint =
      .error ("fingerprint validation failed: " ++ e2) := by
    unfold ValidateFingerprint decodeFingerprintToken
    simp only [h2, h3, h4, h5]
  refine ⟨?_, ?_, ?_⟩
  · unfold VerifyHandler
    simp only [hv1]
  · unfold VerifyHandler
    simp only [hv2]
  · unfold VerifyHandler
    simp only [hv1, hv2]

/-- C7 witness: a token failing decryption (shorter than the nonce) and a
token decoding to an out-of-range core count receive the same generic
response. -/
theorem C7_witness :
    VerifyHandler gcmOpen0 unmarshalBad marshalStr0 key0 svc0 idKey0 dbBoundary 0 "s1"
      req1Ex "ip" "ua" =
      ({ Valid := false, Message := "Fingerprint validation failed" }, dbBoundary) ∧
    VerifyHandler gcmOpen0 unmarshalBad marshalStr0 key0 svc0 idKey0 dbBoundary 0 "s1"
      req2Ex "ip" "ua" =
      ({ Valid := false, Message := "Fingerprint validation failed" }, dbBoundary) ∧
    (VerifyHandler gcmOpen0 unmarshalBad marshalStr0 key0 svc0 idKey0 dbBoundary 0 "s1"
      req1Ex "ip" "ua").1 =
    (VerifyHandler gcmOpen0 unmarshalBad marshalStr0 key0 svc0 idKey0 dbBoundary 0 "s1"
      req2Ex "ip" "ua").1 :=
  C7_indistinguishable gcmOpen0 unmarshalBad marshalStr0 key0 svc0 idKey0 dbBoundary 0 "s1"
    req1Ex req2Ex "ip" "ua" "ip" "ua" "ciphertext too short" [61, 61, 81, 81] [65] fpBad
    "invalid hardware concurrency: hardware concurrency out of range"
    rfl rfl rfl rfl rfl

/-- C8: for every fingerprint record whose core count lies outside
[1,128] and whose earlier-checked fields (browser identity, language,
platform) pass their rules, validation fails on the core-count field,
naming it: the validator checks field-local rules in source order and
stops at the first violation. -/
theorem C8_corecount (fp : FingerprintData)
    (h1 : validateUserAgent fp.UserAgent = .ok ())
    (h2 : validateLanguage fp.Language = .ok ())
    (h3 : validatePlatform fp.Platform = .ok ())
    (h4 : fp.HardwareConcurrency < 1 ∨ fp.HardwareConcurrency > 128) :
    validateFingerprintFields fp =
      .error "invalid hardware concurrency: hardware concurrency out of range" := by
  have hc : (decide (fp.HardwareConcurrency < 1) || decide (fp.HardwareConcurrency > 128)) = true := by
    rcases h4 with h | h <;> simp [h]
  unfold validateFingerprintFields
  simp only [h1, h2, h3]
  unfold validateHardwareConcurrency
  rw [if_pos hc]
  rfl

/-- C8 witness: the concrete record with core count 256 fails on the
core-count field. -/
theorem C8_witness :
    validateFingerprintFields fpBad =
      .error "invalid hardware concurrency: hardware concurrency out of range" :=
  C8_corecount fpBad rfl rfl rfl (Or.inr (by decide))

/-- C9: EstimateSolveTime equals the minimum of the configured maximum
and the 64-bit shift of 1 by four bits per configured target-prefix
character, divided by the assumed rate of 100 hashes per second; its
result never exceeds the configured maximum, and the admission decision
(verifySolution) does not depend on the service configuration at all. -/
theorem C9_estimate (s : Service) :
    EstimateSolveTime s =
      min (Int.tdiv (goShiftL1 ((strBytes s.cfg.Argon2Target).length * 4)) 100)
        s.cfg.Argon2MaxSolveTime ∧
    EstimateSolveTime s ≤ s.cfg.Argon2MaxSolveTime ∧
    (∀ (s2 : Service) (idKey : Argon2Fn) (ch : Challenge) (nonce hash : String),
      verifySolution s idKey ch nonce hash = verifySolution s2 idKey ch nonce hash) := by
  refine ⟨?_, ?_, ?_⟩
  · simp only [EstimateSolveTime]
    split <;> omega
  · simp only [EstimateSolveTime]
    split <;> omega
  · intro s2 idKey ch nonce hash
    cases hs : b64Decode ch.Salt <;> simp [verifySolution, hs, hasValidTarget]

/-- C9 witness: the estimate for the concrete configuration is clamped by
its maximum. -/
theorem C9_witness : EstimateSolveTime svc0 ≤ svc0.cfg.Argon2MaxSolveTime :=
  (C9_estimate svc0).2.1

/-- C10: Decrypt is total — it returns either a plaintext or an error for
every input string and key; any input whose base64 decoding is shorter
than the 12-byte nonce size is rejected by the explicit length guard, and
otherwise the nonce split is in bounds: the nonce taken has length
exactly 12 and concatenating it with the remainder reconstructs the
decoded bytes. -/
theorem C10_decrypt_total (gcmOpen : GCMOpenFn) (tok : String) (key : List Nat) :
    ((∃ e, Decrypt gcmOpen tok key = .error e) ∨ (∃ pt, Decrypt gcmOpen tok key = .ok pt)) ∧
    (∀ ct, b64Decode tok = some ct → validAESKeyLen key = true → ct.length < gcmNonceSize →
      Decrypt gcmOpen tok key = .error "ciphertext too short") ∧
    (∀ ct, b64Decode tok = some ct → validAESKeyLen key = true → gcmNonceSize ≤ ct.length →
      (ct.take gcmNonceSize).length = gcmNonceSize ∧
      ct.take gcmNonceSize ++ ct.drop gcmNonceSize = ct ∧
      Decrypt gcmOpen tok key =
        (match gcmOpen key (ct.take gcmNonceSize) (ct.drop gcmNonceSize) with
         | none => .error "failed to decrypt"
         | some pt => .ok pt)) := by
  refine ⟨?_, ?_, ?_⟩
  · cases h : Decrypt gcmOpen tok key with
    | error e => exact Or.inl ⟨e, rfl⟩
    | ok pt => exact Or.inr ⟨pt, rfl⟩
  · intro ct hct hkey hlen
    unfold Decrypt
    simp only [hct]
    rw [if_pos hkey, if_pos hlen]
  · intro ct hct hkey hlen
    refine ⟨?_, List.take_append_drop _ _, ?_⟩
    · rw [List.length_take]
      omega
    · unfold Decrypt
      simp only [hct]
      rw [if_pos hkey, if_neg (by omega)]

/-- C10 witness: a token decoding to a single byte hits the length
guard. -/
theorem C10_witness : Decrypt gcmOpen0 "AA==" key0 = .error "ciphertext too short" :=
  (C10_decrypt_total gcmOpen0 "AA==" key0).2.1 [0] rfl (by decide) (by decide)

end Captcha
